import Mathlib

/-!
Verification of the schema-driven renderer runtime: the per-kind lookup
registry, the reconciliation pipeline (clean / create / relationship
building), the anchored position resolver, and the hit-test traversal.
JavaScript Maps are embedded as insertion-ordered association lists,
renderable objects as natural-number identity tokens, and numbers as
rationals.  Fallible code returns Except; the awaited asynchronous load
step is supplied to prepare as an explicit outcome parameter.
-/

namespace SchemaPixi

/-- Identity token for an instantiated renderable (a reference in JS). -/
abbrev Obj := Nat

/-- The declarative config for one identifier, restricted to the fields the
modeled operations read or write: tag, parent, zIndex, and the identifier
field that getHit writes into the stored config. -/
structure Config where
  tag : Option String := none
  parent : Option String := none
  zIndex : Option Int := none
  identifier : Option String := none
deriving Repr, DecidableEq, Inhabited

/-- JS Map.get on an insertion-ordered association list. -/
def mget {α β : Type} [DecidableEq α] : List (α × β) → α → Option β
  | [], _ => none
  | (k', v) :: rest, k => if k' = k then some v else mget rest k

/-- JS Map.set: overwrite in place when the key exists, append otherwise
(insertion order of existing keys is preserved). -/
def mset {α β : Type} [DecidableEq α] : List (α × β) → α → β → List (α × β)
  | [], k, v => [(k, v)]
  | (k', v') :: rest, k, v =>
    if k' = k then (k, v) :: rest else (k', v') :: mset rest k v

/-- JS Map.delete: remove the entry under the key (keys are unique). -/
def mdel {α β : Type} [DecidableEq α] : List (α × β) → α → List (α × β)
  | [], _ => []
  | (k', v') :: rest, k => if k' = k then rest else (k', v') :: mdel rest k

/-- utils.setOrAppend: push onto the existing bucket, or create the bucket. -/
def setOrAppend {α β : Type} [DecidableEq α] (m : List (α × List β)) (k : α) (v : β) :
    List (α × List β) :=
  match mget m k with
  | some l => mset m k (l ++ [v])
  | none => mset m k [v]

/-- The key list of an association map. -/
def keys {α β : Type} (m : List (α × β)) : List α := m.map Prod.fst

/-- The four-view per-kind registry (runtime type Lookup). -/
structure Lookup where
  byIdentifier : List (String × Obj) := []
  byTag : List (String × List Obj) := []
  configBy : List (Obj × Config) := []
  identifierBy : List (Obj × String) := []
deriving Repr, DecidableEq, Inhabited

/-- The loop body of runtime clean: iterate the byIdentifier entries; for
each identifier absent from the new snapshot's key set, delete it from
byIdentifier, delete the object from configBy, and destroy the object
(collected in the returned list, in invocation order).  The identifierBy
view is not touched by the loop. -/
def cleanLoop (ks : List String) : List (String × Obj) → Lookup → Lookup × List Obj
  | [], lk => (lk, [])
  | (identifier, item) :: rest, lk =>
    if ks.contains identifier then cleanLoop ks rest lk
    else
      let lk' : Lookup :=
        { lk with byIdentifier := mdel lk.byIdentifier identifier,
                  configBy := mdel lk.configBy item }
      let r := cleanLoop ks rest lk'
      (r.1, item :: r.2)

/-- runtime clean: skip everything when the kind's record is undefined;
otherwise destroy every registered identifier absent from the new record
and clear the byTag view.  Returns the updated lookup and the destroyed
objects in destruction order. -/
def clean (current : Option (List (String × Config))) (lk : Lookup) : Lookup × List Obj :=
  match current with
  | none => (lk, [])
  | some cur =>
    let r := cleanLoop (cur.map Prod.fst) lk.byIdentifier lk
    ({ r.1 with byTag := [] }, r.2)

/-- visuals create: for each identifier in the kind's record (in key order),
recycle the registered object or invoke the injected factory, register the
object under all four views, and stage a parent reference when the config
declares one.  The unconditional reset of the object's applied filter list
acts on the renderable itself and is outside the tracked registry state.
Returns the updated lookup, the updated parent staging map
(childrenByIdentifier), and the identifiers for which the factory ran. -/
def create (make : String → Config → Obj) :
    List (String × Config) → Lookup → List (String × List Obj) →
    Lookup × List (String × List Obj) × List String
  | [], lk, staged => (lk, staged, [])
  | (identifier, config) :: rest, lk, staged =>
    let pixiAndCall : Obj × List String :=
      match mget lk.byIdentifier identifier with
      | some p => (p, [])
      | none => (make identifier config, [identifier])
    let pixi := pixiAndCall.1
    let lk' : Lookup :=
      { byIdentifier := mset lk.byIdentifier identifier pixi
        byTag := match config.tag with
                 | some t => setOrAppend lk.byTag t pixi
                 | none => lk.byTag
        configBy := mset lk.configBy pixi config
        identifierBy := mset lk.identifierBy pixi identifier }
    let staged' := match config.parent with
                   | some p => setOrAppend staged p pixi
                   | none => staged
    let r := create make rest lk' staged'
    (r.1, r.2.1, pixiAndCall.2 ++ r.2.2)

/-- Error raised when reading the assetPath of a missing alias entry
(a JS TypeError on an undefined value). -/
inductive RelErr where
  | typeError
deriving Repr, DecidableEq

/-- visuals formRelationships, parent resolution for one staged identifier:
look the identifier up directly in the sprite registry; on a miss, read the
alias entry (throwing when it is absent) and retry with its assetPath.  The
second lookup may produce no sprite; the non-null assertion in the source
lets that undefined value flow on, so the result is an Option. -/
def resolveParent (sprites : List (String × Obj)) (aliasTable : List (String × String))
    (identifier : String) : Except RelErr (Option Obj) :=
  match mget sprites identifier with
  | some p => Except.ok (some p)
  | none =>
    match mget aliasTable identifier with
    | none => Except.error RelErr.typeError
    | some path => Except.ok (mget sprites path)

/-- visuals formRelationships: for every staged parent identifier, resolve
the parent and record the children under it in childrenByParent and the
parent for each child in parentByChild. -/
def formRelationships (sprites : List (String × Obj)) (aliasTable : List (String × String)) :
    List (String × List Obj) → List (Option Obj × List Obj) → List (Obj × Option Obj) →
    Except RelErr (List (Option Obj × List Obj) × List (Obj × Option Obj))
  | [], cbp, pbc => Except.ok (cbp, pbc)
  | (identifier, children) :: rest, cbp, pbc =>
    match resolveParent sprites aliasTable identifier with
    | Except.error e => Except.error e
    | Except.ok parent =>
        formRelationships sprites aliasTable rest (mset cbp parent children)
          (children.foldl (fun m c => mset m c parent) pbc)

/-- The snapshot input to one reconciliation (RenderInput plus AliasLookup);
a kind's record may be absent at runtime. -/
structure Input where
  Sprite : Option (List (String × Config)) := none
  Graphic : Option (List (String × Config)) := none
  Filter : Option (List (String × Config)) := none
  Alias : List (String × String) := []
deriving Repr, DecidableEq, Inhabited

/-- The reconciliation-relevant state of a runtime Scope: the per-kind
lookups, the relationship maps, and the alias table. -/
structure Scope where
  sprite : Lookup := {}
  graphic : Lookup := {}
  filter : Lookup := {}
  transition : Lookup := {}
  childrenByParent : List (Option Obj × List Obj) := []
  parentByChild : List (Obj × Option Obj) := []
  aliasTable : List (String × String) := []
deriving Repr, DecidableEq, Inhabited

/-- The part of prepare that runs before the awaited load: store the alias
table, clean the Sprite, Graphic and Filter lookups against the snapshot,
and clear the Transition lookup's maps and both relationship maps.  Returns
the mutated scope and the destroyed objects per kind (Sprite, Graphic,
Filter). -/
def cleanPhase (s : Scope) (input : Input) : Scope × List Obj × List Obj × List Obj :=
  let rs := clean input.Sprite s.sprite
  let rg := clean input.Graphic s.graphic
  let rf := clean input.Filter s.filter
  ({ sprite := rs.1, graphic := rg.1, filter := rf.1,
     transition := {},
     childrenByParent := [], parentByChild := [],
     aliasTable := input.Alias },
   rs.2, rg.2, rf.2)

/-- visuals configure: reset the staging map, create graphics then sprites,
and form the parent relationships.  The mask wiring and the scene
attachment mutate only the underlying renderables and the render container,
which are outside the tracked registry state.  Returns the scope after the
mutations that did run, the factory-call log, and the relationship error if
one was thrown. -/
def configureVisuals (makeSprite makeGraphic : String → Config → Obj)
    (input : Input) (s : Scope) : Scope × List String × Option RelErr :=
  let rg := create makeGraphic (input.Graphic.getD []) s.graphic []
  let rs := create makeSprite (input.Sprite.getD []) s.sprite rg.2.1
  let calls := rg.2.2 ++ rs.2.2
  let s' := { s with graphic := rg.1, sprite := rs.1 }
  match formRelationships rs.1.byIdentifier s.aliasTable rs.2.1
      s.childrenByParent s.parentByChild with
  | Except.error e => (s', calls, some e)
  | Except.ok r => ({ s' with childrenByParent := r.1, parentByChild := r.2 }, calls, none)

/-- Failure of the top-level reconciliation entry point. -/
inductive PrepErr where
  | loadFailed
  | relationship
deriving Repr, DecidableEq

/-- runtime prepare: clean phase first, then the awaited asset load (its
outcome supplied as the loadOk parameter; a rejection aborts the call
there), then the visual configuration.  The renderer-side steps — stopping
the application, timing, mask wiring, container attachment and the zIndex
sort of the container's children — act on the external renderer, not on the
registry state tracked here; filter and transition configuration touch only
the Filter and Transition lookups and renderable-local state and are not
tracked.  Returns the scope state after the call, the destroyed objects,
and the outcome seen by the caller (the factory-call log on success). -/
def prepare (makeSprite makeGraphic : String → Config → Obj)
    (s : Scope) (input : Input) (loadOk : Bool) :
    Scope × List Obj × Except PrepErr (List String) :=
  let c := cleanPhase s input
  let destroyed := c.2.1 ++ c.2.2.1 ++ c.2.2.2
  if loadOk then
    let v := configureVisuals makeSprite makeGraphic input c.1
    match v.2.2 with
    | some _ => (v.1, destroyed, Except.error PrepErr.relationship)
    | none => (v.1, destroyed, Except.ok v.2.1)
  else (c.1, destroyed, Except.error PrepErr.loadFailed)

/-- The per-kind reconciliation pipeline a snapshot section goes through in
prepare: clean against the section, then create from it.  Returns the
updated lookup, the destroyed objects, and the factory-call log. -/
def reconcileKind (make : String → Config → Obj) (configs : List (String × Config))
    (lk : Lookup) : Lookup × List Obj × List String :=
  let rc := clean (some configs) lk
  let rr := create make configs rc.1 []
  (rr.1, rc.2, rr.2.2)

/-- Anchor fractions of a Position (source fields anchors.self and
anchors.parent). -/
structure Anchors where
  self : ℚ
  parent : ℚ
deriving Repr, DecidableEq

/-- A 1-D placement spec: normalized offset plus the two anchors. -/
structure Position where
  value : ℚ
  anchors : Anchors
deriving Repr, DecidableEq

/-- A self size (width and height). -/
structure Size where
  width : ℚ
  height : ℚ
deriving Repr, DecidableEq

/-- visuals Parent: the center-and-extent frame a Position resolves
against. -/
structure Parent where
  x : ℚ
  y : ℚ
  width : ℚ
  height : ℚ
deriving Repr, DecidableEq

/-- The axis argument of resolvePosition. -/
inductive Dim where
  | x
  | y
deriving Repr, DecidableEq

/-- visuals resolvePosition: the source selects the unit field (width for
the x axis, height for the y axis) and combines the parent coordinate, the
parent anchor, the self-size anchor correction and the value. -/
def resolvePosition (p : Position) (dimension : Dim) (self : Size) (parent : Parent) : ℚ :=
  match dimension with
  | Dim.x =>
      parent.x - parent.width / 2 + p.anchors.parent * parent.width
        + (1 / 2 - p.anchors.self) * self.width + parent.width * p.value
  | Dim.y =>
      parent.y - parent.height / 2 + p.anchors.parent * parent.height
        + (1 / 2 - p.anchors.self) * self.height + parent.height * p.value

/-- Reference formula written from the spec's wording: unit is the parent
frame's width on the x axis and height on the y axis, and the result is
parentFrame at the axis, minus unit over two, plus the parent anchor times
unit, plus half-minus-self-anchor times the self size along the axis
dimension, plus unit times the value. -/
def resolvePositionSpec (p : Position) (dimension : Dim) (self : Size) (parent : Parent) : ℚ :=
  let unit : ℚ := match dimension with | Dim.x => parent.width | Dim.y => parent.height
  let coord : ℚ := match dimension with | Dim.x => parent.x | Dim.y => parent.y
  let selfExtent : ℚ := match dimension with | Dim.x => self.width | Dim.y => self.height
  coord - unit / 2 + p.anchors.parent * unit + (1 / 2 - p.anchors.self) * selfExtent
    + unit * p.value

/-- The runtime kind of a scene item, standing in for the instanceof checks
of the source (PIXI.Sprite, PIXI.Graphics, plain PIXI.Container). -/
inductive Kind where
  | sprite
  | graphic
  | container
deriving Repr, DecidableEq

/-- Axis-aligned bounds as returned by getBounds. -/
structure Bounds where
  x : ℚ
  y : ℚ
  width : ℚ
  height : ℚ
deriving Repr, DecidableEq

/-- A node of the live container tree: identity token, runtime kind,
bounds, zIndex, and children in insertion order. -/
inductive Node where
  | mk (id : Obj) (kind : Kind) (bounds : Bounds) (zIndex : Int) (children : List Node)
deriving Repr

/-- Identity token of a node. -/
def Node.id : Node → Obj
  | Node.mk i _ _ _ _ => i

/-- Runtime kind of a node. -/
def Node.kind : Node → Kind
  | Node.mk _ k _ _ _ => k

/-- Bounds of a node. -/
def Node.bounds : Node → Bounds
  | Node.mk _ _ b _ _ => b

/-- zIndex of a node. -/
def Node.zIndex : Node → Int
  | Node.mk _ _ _ z _ => z

/-- Children of a node, in insertion order. -/
def Node.children : Node → List Node
  | Node.mk _ _ _ _ c => c

/-- The bounds check of the traversal: inclusive on all four edges. -/
def hitBounds (b : Bounds) (x y : ℚ) : Bool :=
  decide (b.x ≤ x) && decide (x ≤ b.x + b.width)
    && decide (b.y ≤ y) && decide (y ≤ b.y + b.height)

/-- The update of the traversal's topmostObject candidate: replace when
there is no candidate yet or the child's zIndex is strictly greater. -/
def updateTopmost (best : Option Node) (child : Node) : Option Node :=
  match best with
  | none => some child
  | some t => if t.zIndex < child.zIndex then some child else some t

theorem sizeOf_node_list_concat (l : List Node) (a : Node) :
    sizeOf (l ++ [a]) = sizeOf l + sizeOf a + 1 := by
  induction l with
  | nil => simp
  | cons b l ih =>
    simp [ih]
    omega

theorem sizeOf_node_list_reverse (l : List Node) : sizeOf l.reverse = sizeOf l := by
  induction l with
  | nil => rfl
  | cons a l ih =>
    rw [List.reverse_cons, sizeOf_node_list_concat, ih]
    simp
    omega

theorem sizeOf_node_children_lt (n : Node) : sizeOf n.children < sizeOf n := by
  cases n
  simp [Node.children]

/-- The traversal loop of findTopmostObjectAtPosition: walk the children
backwards (last inserted first); on the first child whose bounds contain
the point, dive into it when it has children of its own, then update the
topmostObject candidate with the child and stop scanning this level;
otherwise keep scanning. -/
def traverseChildren (x y : ℚ) : List Node → Option Node → Option Node
  | [], best => best
  | child :: rest, best =>
    if hitBounds child.bounds x y then
      let deeper :=
        if child.children.isEmpty then best
        else traverseChildren x y child.children.reverse best
      updateTopmost deeper child
    else traverseChildren x y rest best
termination_by l _ => sizeOf l
decreasing_by
  · rw [sizeOf_node_list_reverse]
    have h1 := sizeOf_node_children_lt child
    simp
    try omega
  · simp
    try omega

/-- runtime findTopmostObjectAtPosition: run the traversal from the root's
children with no candidate. -/
def findTopmostObjectAtPosition (root : Node) (x y : ℚ) : Option Node :=
  traverseChildren x y root.children.reverse none

/-- Specification-side chain of the traversal: the first bounds hit among
the children in reverse insertion order, preceded by the chain inside it
when it has descendants; siblings after the first hit are never visited. -/
def hitChainList (x y : ℚ) : List Node → List Node
  | [] => []
  | c :: rest =>
    if hitBounds c.bounds x y then
      (if c.children.isEmpty then [] else hitChainList x y c.children.reverse) ++ [c]
    else hitChainList x y rest
termination_by l => sizeOf l
decreasing_by
  · rw [sizeOf_node_list_reverse]
    have h1 := sizeOf_node_children_lt c
    simp
    try omega
  · simp
    try omega

/-- The levels the hit-test visits below a root, innermost candidate
first. -/
def hitChain (root : Node) (x y : ℚ) : List Node :=
  hitChainList x y root.children.reverse

/-- Insertion step of the container's zIndex sort. -/
def insertByZ (n : Node) : List Node → List Node
  | [] => [n]
  | m :: rest => if n.zIndex < m.zIndex then n :: m :: rest else m :: insertByZ n rest

/-- Modelled from the spec: sortChildren of the external render container
(invoked by prepare), ordering the children by ascending zIndex. -/
def sortChildrenByZ (l : List Node) : List Node := l.foldr insertByZ []

/-- runtime getHit: find the topmost object under the point; post null on a
miss; for a sprite or graphic candidate, write the candidate's identifier
into the very config object stored in configBy and post that config.  A
candidate that is a plain container posts nothing.  Reading the config of
an unregistered candidate throws.  Returns the posted message (if any) and
the sprite and graphic lookups after the call. -/
def getHit (sprite graphic : Lookup) (container : Node) (x y : ℚ) :
    Except RelErr (Option (Option Config) × Lookup × Lookup) :=
  match findTopmostObjectAtPosition container x y with
  | none => Except.ok (some none, sprite, graphic)
  | some candidate =>
    match candidate.kind with
    | Kind.sprite =>
      match mget sprite.configBy candidate.id with
      | none => Except.error RelErr.typeError
      | some config =>
        let config' := { config with identifier := mget sprite.identifierBy candidate.id }
        Except.ok (some (some config'),
          { sprite with configBy := mset sprite.configBy candidate.id config' }, graphic)
    | Kind.graphic =>
      match mget graphic.configBy candidate.id with
      | none => Except.error RelErr.typeError
      | some config =>
        let config' := { config with identifier := mget graphic.identifierBy candidate.id }
        Except.ok (some (some config'), sprite,
          { graphic with configBy := mset graphic.configBy candidate.id config' })
    | Kind.container => Except.ok (none, sprite, graphic)

/-- A config with its identifier field overwritten, as getHit does in
place. -/
def withIdentifier (cfg : Config) (id : Option String) : Config :=
  { cfg with identifier := id }

/-- The bucket stored under a key of a tag map (empty when absent). -/
def bucket {α β : Type} [DecidableEq α] (m : List (α × List β)) (k : α) : List β :=
  (mget m k).getD []

theorem mget_mset_self {α β : Type} [DecidableEq α] (m : List (α × β)) (k : α) (v : β) :
    mget (mset m k v) k = some v := by
  induction m with
  | nil => simp [mget, mset]
  | cons e rest ih =>
    obtain ⟨k', v'⟩ := e
    by_cases h : k' = k
    · simp [mget, mset, h]
    · simp [mget, mset, h, ih]

theorem mget_mset_ne {α β : Type} [DecidableEq α] (m : List (α × β)) (k k' : α) (v : β)
    (h : k ≠ k') : mget (mset m k v) k' = mget m k' := by
  induction m with
  | nil => simp [mget, mset, fun hh => h hh]
  | cons e rest ih =>
    obtain ⟨k₀, v₀⟩ := e
    by_cases h0 : k₀ = k
    · subst h0
      simp [mget, mset, h]
    · simp only [mset, if_neg h0]
      by_cases h1 : k₀ = k'
      · simp [mget, h1]
      · simp [mget, h1, ih]

theorem mset_eq_self_of_mget {α β : Type} [DecidableEq α] (m : List (α × β)) (k : α) (v : β)
    (h : mget m k = some v) : mset m k v = m := by
  induction m with
  | nil => simp [mget] at h
  | cons e rest ih =>
    obtain ⟨k₀, v₀⟩ := e
    by_cases h0 : k₀ = k
    · subst h0
      simp [mget] at h
      simp [mset, h]
    · simp [mget, h0] at h
      simp [mset, h0, ih h]

theorem mget_eq_none_iff {α β : Type} [DecidableEq α] (m : List (α × β)) (k : α) :
    mget m k = none ↔ k ∉ keys m := by
  induction m with
  | nil => simp [mget, keys]
  | cons e rest ih =>
    obtain ⟨k₀, v₀⟩ := e
    by_cases h0 : k₀ = k
    · subst h0
      simp [mget, keys]
    · simp only [mget, if_neg h0, keys, List.map_cons]
      rw [ih]
      constructor
      · intro h
        intro hk
        rcases List.mem_cons.mp hk with hk | hk
        · exact h0 hk.symm
        · exact h hk
      · intro h hk
        exact h (List.mem_cons_of_mem _ hk)

theorem mget_mem {α β : Type} [DecidableEq α] (m : List (α × β)) (k : α) (v : β)
    (h : mget m k = some v) : (k, v) ∈ m := by
  induction m with
  | nil => simp [mget] at h
  | cons e rest ih =>
    obtain ⟨k₀, v₀⟩ := e
    by_cases h0 : k₀ = k
    · subst h0
      simp [mget] at h
      simp [h]
    · simp [mget, h0] at h
      simp [ih h]

theorem mget_ne_none_of_mem {α β : Type} [DecidableEq α] (m : List (α × β)) (k : α) (v : β)
    (h : (k, v) ∈ m) : mget m k ≠ none := by
  rw [Ne, mget_eq_none_iff]
  intro hk
  exact hk (List.mem_map_of_mem Prod.fst h)

theorem mget_mdel_ne {α β : Type} [DecidableEq α] (m : List (α × β)) (k k' : α)
    (h : k ≠ k') : mget (mdel m k) k' = mget m k' := by
  induction m with
  | nil => simp [mdel]
  | cons e rest ih =>
    obtain ⟨k₀, v₀⟩ := e
    by_cases h0 : k₀ = k
    · subst h0
      simp [mdel, mget, h]
    · simp [mdel, mget, h0, ih]

theorem mget_mdel_self {α β : Type} [DecidableEq α] (m : List (α × β)) (k : α)
    (hnd : (keys m).Nodup) : mget (mdel m k) k = none := by
  induction m with
  | nil => simp [mdel, mget]
  | cons e rest ih =>
    obtain ⟨k₀, v₀⟩ := e
    have hnd' : k₀ ∉ keys rest ∧ (keys rest).Nodup := by
      simpa only [keys, List.map_cons, List.nodup_cons] using hnd
    by_cases h0 : k₀ = k
    · subst h0
      simp only [mdel, if_pos rfl]
      rw [mget_eq_none_iff]
      exact hnd'.1
    · simp only [mdel, if_neg h0, mget, if_neg h0]
      exact ih hnd'.2

theorem keys_mdel_sublist {α β : Type} [DecidableEq α] (m : List (α × β)) (k : α) :
    (keys (mdel m k)).Sublist (keys m) := by
  induction m with
  | nil => simp [mdel, keys]
  | cons e rest ih =>
    obtain ⟨k₀, v₀⟩ := e
    by_cases h0 : k₀ = k
    · simp [mdel, h0, keys]
    · simp only [mdel, if_neg h0, keys, List.map_cons]
      exact List.Sublist.cons₂ _ ih

theorem nodup_keys_mdel {α β : Type} [DecidableEq α] (m : List (α × β)) (k : α)
    (hnd : (keys m).Nodup) : (keys (mdel m k)).Nodup :=
  (keys_mdel_sublist m k).nodup hnd

theorem mget_foldl_mdel_of_not_mem {α β : Type} [DecidableEq α] (ids : List α) :
    ∀ (m : List (α × β)) (k : α), k ∉ ids →
      mget (List.foldl mdel m ids) k = mget m k := by
  induction ids with
  | nil => intro m k _; rfl
  | cons i rest ih =>
    intro m k hk
    simp at hk
    rw [List.foldl_cons, ih _ _ hk.2, mget_mdel_ne _ _ _ (fun hh => hk.1 hh.symm)]

theorem mget_foldl_mdel_of_mem {α β : Type} [DecidableEq α] (ids : List α) :
    ∀ (m : List (α × β)) (k : α), (keys m).Nodup → k ∈ ids →
      mget (List.foldl mdel m ids) k = none := by
  induction ids with
  | nil => intro m k _ hk; simp at hk
  | cons i rest ih =>
    intro m k hnd hk
    rw [List.foldl_cons]
    by_cases hmem : k ∈ rest
    · exact ih _ _ (nodup_keys_mdel m i hnd) hmem
    · have hki : k = i := by
        rcases List.mem_cons.mp hk with h | h
        · exact h
        · exact absurd h hmem
      subst hki
      rw [mget_foldl_mdel_of_not_mem _ _ _ hmem, mget_mdel_self _ _ hnd]

theorem mget_foldl_mdel_ne_none {α β : Type} [DecidableEq α] (ids : List α) :
    ∀ (m : List (α × β)) (k : α), mget (List.foldl mdel m ids) k ≠ none →
      mget m k ≠ none := by
  induction ids with
  | nil => intro m k h; exact h
  | cons i rest ih =>
    intro m k h
    have h1 := ih _ _ h
    rw [Ne, mget_eq_none_iff] at h1 ⊢
    intro hk
    exact h1 fun hmem => hk (((keys_mdel_sublist m i).subset) hmem)

theorem bucket_setOrAppend_self {α β : Type} [DecidableEq α] (m : List (α × List β))
    (k : α) (v : β) : bucket (setOrAppend m k v) k = bucket m k ++ [v] := by
  unfold setOrAppend bucket
  cases h : mget m k with
  | none => simp [h, mget_mset_self]
  | some l => simp [h, mget_mset_self]

theorem bucket_setOrAppend_ne {α β : Type} [DecidableEq α] (m : List (α × List β))
    (k k' : α) (v : β) (h : k ≠ k') :
    bucket (setOrAppend m k v) k' = bucket m k' := by
  unfold setOrAppend bucket
  cases hm : mget m k with
  | none => rw [mget_mset_ne _ _ _ _ h]
  | some l => rw [mget_mset_ne _ _ _ _ h]

theorem mget_setOrAppend_ne_none {α β : Type} [DecidableEq α] (m : List (α × List β))
    (k k' : α) (v : β) (h : mget m k' ≠ none ∨ k = k') :
    mget (setOrAppend m k v) k' ≠ none := by
  by_cases hk : k = k'
  · subst hk
    unfold setOrAppend
    cases hm : mget m k with
    | none => simp [mget_mset_self]
    | some l => simp [mget_mset_self]
  · unfold setOrAppend
    have h' : mget m k' ≠ none := by
      rcases h with h | h
      · exact h
      · exact absurd h hk
    cases hm : mget m k with
    | none => rw [mget_mset_ne _ _ _ _ hk]; exact h'
    | some l => rw [mget_mset_ne _ _ _ _ hk]; exact h'

/-- The stale entries of a byIdentifier view relative to a key set: the
ones clean's loop removes and destroys. -/
def staleOf (ks : List String) (entries : List (String × Obj)) : List (String × Obj) :=
  entries.filter (fun e => !(ks.contains e.1))

theorem cleanLoop_spec (ks : List String) :
    ∀ (entries : List (String × Obj)) (lk : Lookup),
      (cleanLoop ks entries lk).1.byIdentifier
          = List.foldl mdel lk.byIdentifier (keys (staleOf ks entries))
      ∧ (cleanLoop ks entries lk).1.configBy
          = List.foldl mdel lk.configBy ((staleOf ks entries).map Prod.snd)
      ∧ (cleanLoop ks entries lk).1.byTag = lk.byTag
      ∧ (cleanLoop ks entries lk).1.identifierBy = lk.identifierBy
      ∧ (cleanLoop ks entries lk).2 = (staleOf ks entries).map Prod.snd := by
  intro entries
  induction entries with
  | nil => intro lk; simp [cleanLoop, staleOf, keys]
  | cons e rest ih =>
    intro lk
    obtain ⟨identifier, item⟩ := e
    by_cases h : ks.contains identifier
    · have hm : identifier ∈ ks := by simpa using h
      have hs : staleOf ks ((identifier, item) :: rest) = staleOf ks rest := by
        simp [staleOf, List.filter_cons, hm]
      simp only [cleanLoop, if_pos h, hs]
      exact ih lk
    · have hm : identifier ∉ ks := by simpa using h
      have hs : staleOf ks ((identifier, item) :: rest)
          = (identifier, item) :: staleOf ks rest := by
        simp [staleOf, List.filter_cons, hm]
      simp only [cleanLoop, if_neg h, hs, keys, List.map_cons, List.foldl_cons]
      exact ⟨(ih _).1, (ih _).2.1, (ih _).2.2.1, (ih _).2.2.2.1, by rw [(ih _).2.2.2.2]⟩

theorem clean_some_spec (cur : List (String × Config)) (lk : Lookup) :
    (clean (some cur) lk).1.byIdentifier
        = List.foldl mdel lk.byIdentifier (keys (staleOf (cur.map Prod.fst) lk.byIdentifier))
    ∧ (clean (some cur) lk).1.configBy
        = List.foldl mdel lk.configBy
            ((staleOf (cur.map Prod.fst) lk.byIdentifier).map Prod.snd)
    ∧ (clean (some cur) lk).1.byTag = []
    ∧ (clean (some cur) lk).1.identifierBy = lk.identifierBy
    ∧ (clean (some cur) lk).2
        = (staleOf (cur.map Prod.fst) lk.byIdentifier).map Prod.snd := by
  have h := cleanLoop_spec (cur.map Prod.fst) lk.byIdentifier lk
  simp only [clean]
  exact ⟨h.1, h.2.1, by trivial, h.2.2.2.1, h.2.2.2.2⟩

theorem clean_byIdentifier_ne_none (c : Option (List (String × Config))) (lk : Lookup)
    (id : String) (h : mget (clean c lk).1.byIdentifier id ≠ none) :
    mget lk.byIdentifier id ≠ none := by
  cases c with
  | none => exact h
  | some cur =>
    rw [(clean_some_spec cur lk).1] at h
    exact mget_foldl_mdel_ne_none _ _ _ h

/-- A registry holding one sprite under identifier b, tagged t. -/
def lookupC1 : Lookup :=
  { byIdentifier := [("b", 7)], byTag := [("t", [7])],
    configBy := [(7, { tag := some "t" })], identifierBy := [(7, "b")] }

/-- Claim C1 counterexample: identifier b is registered (object 7) and is
absent from the new snapshot's present Sprite section, and clean does
remove it from byIdentifier and configBy, clears byTag, and destroys the
object once; but the object→identifier view still holds the entry for
object 7 afterwards, so the object is not removed from all four registry
views as the claim states. -/
theorem C1_counterexample :
    mget lookupC1.byIdentifier "b" = some 7
    ∧ mget ((clean (some []) lookupC1).1.byIdentifier) "b" = none
    ∧ mget ((clean (some []) lookupC1).1.configBy) 7 = none
    ∧ (clean (some []) lookupC1).1.byTag = []
    ∧ (clean (some []) lookupC1).2 = [7]
    ∧ ¬ (mget ((clean (some []) lookupC1).1.identifierBy) 7 = none) := by
  refine ⟨rfl, rfl, rfl, rfl, rfl, ?_⟩
  decide

/-- Claim C1 (amended): for a reconciliation whose kind section is present,
an identifier registered before but absent from the new section has its
object removed from the identifier→object and object→config views, the
tag→object-list view is cleared wholesale, and the object's destroy runs
exactly once; the object→identifier view, however, is left untouched and
retains the stale entry. -/
theorem C1_theorem (cur : List (String × Config)) (lk : Lookup) (id : String) (o : Obj)
    (hndk : (keys lk.byIdentifier).Nodup)
    (hndv : (lk.byIdentifier.map Prod.snd).Nodup)
    (hndc : (keys lk.configBy).Nodup)
    (hreg : mget lk.byIdentifier id = some o)
    (habs : id ∉ cur.map Prod.fst) :
    mget ((clean (some cur) lk).1.byIdentifier) id = none
    ∧ mget ((clean (some cur) lk).1.configBy) o = none
    ∧ (clean (some cur) lk).1.byTag = []
    ∧ (clean (some cur) lk).1.identifierBy = lk.identifierBy
    ∧ ((clean (some cur) lk).2.count o) = 1 := by
  have hspec := clean_some_spec cur lk
  have hmem : (id, o) ∈ lk.byIdentifier := mget_mem _ _ _ hreg
  have hstale : (id, o) ∈ staleOf (cur.map Prod.fst) lk.byIdentifier := by
    rw [staleOf, List.mem_filter]
    exact ⟨hmem, by simpa using habs⟩
  have hsub : (staleOf (cur.map Prod.fst) lk.byIdentifier).Sublist lk.byIdentifier :=
    List.filter_sublist _
  refine ⟨?_, ?_, hspec.2.2.1, hspec.2.2.2.1, ?_⟩
  · rw [hspec.1]
    exact mget_foldl_mdel_of_mem _ _ _ hndk (List.mem_map_of_mem Prod.fst hstale)
  · rw [hspec.2.1]
    exact mget_foldl_mdel_of_mem _ _ _ hndc (List.mem_map_of_mem Prod.snd hstale)
  · rw [hspec.2.2.2.2]
    exact List.count_eq_one_of_mem ((hsub.map Prod.snd).nodup hndv)
      (List.mem_map_of_mem Prod.snd hstale)

/-- Witness for the amended C1 at a concrete registry. -/
theorem C1_witness :
    ((keys lookupC1.byIdentifier).Nodup
      ∧ (lookupC1.byIdentifier.map Prod.snd).Nodup
      ∧ (keys lookupC1.configBy).Nodup
      ∧ mget lookupC1.byIdentifier "b" = some 7
      ∧ "b" ∉ ([] : List (String × Config)).map Prod.fst)
    ∧ (mget ((clean (some []) lookupC1).1.byIdentifier) "b" = none
      ∧ mget ((clean (some []) lookupC1).1.configBy) 7 = none
      ∧ (clean (some []) lookupC1).1.byTag = []
      ∧ (clean (some []) lookupC1).1.identifierBy = lookupC1.identifierBy
      ∧ ((clean (some []) lookupC1).2.count 7) = 1) :=
  ⟨⟨by decide, by decide, by decide, rfl, by decide⟩,
    C1_theorem [] lookupC1 "b" 7 (by decide) (by decide) (by decide) rfl (by decide)⟩

/-- Claim C9: when a kind's record passed to prepare is undefined, the
cleanup step for that kind is skipped entirely: that kind's lookup keeps
every view unchanged (byTag included) and no object of that kind is
destroyed, even though its identifier is absent from the new snapshot. -/
theorem C9_theorem (s : Scope) (input : Input) :
    (input.Sprite = none →
      (cleanPhase s input).1.sprite = s.sprite ∧ (cleanPhase s input).2.1 = [])
    ∧ (input.Graphic = none →
      (cleanPhase s input).1.graphic = s.graphic ∧ (cleanPhase s input).2.2.1 = [])
    ∧ (input.Filter = none →
      (cleanPhase s input).1.filter = s.filter ∧ (cleanPhase s input).2.2.2 = []) := by
  refine ⟨fun h => ?_, fun h => ?_, fun h => ?_⟩ <;>
    simp [cleanPhase, h, clean]

/-- A scope holding one sprite, used for the C9 witness. -/
def scopeC9 : Scope := { sprite := lookupC1 }

/-- A snapshot whose Sprite section is undefined while the others are
present and empty. -/
def inputC9 : Input := { Sprite := none, Graphic := some [], Filter := some [] }

/-- Witness for C9: the stale sprite of the scope survives untouched when
the Sprite section is undefined. -/
theorem C9_witness :
    inputC9.Sprite = none
    ∧ ((cleanPhase scopeC9 inputC9).1.sprite = scopeC9.sprite
      ∧ (cleanPhase scopeC9 inputC9).2.1 = []) :=
  ⟨rfl, (C9_theorem scopeC9 inputC9).1 rfl⟩

/-- A scope holding one stale sprite for the C2 counterexample. -/
def scopeC2 : Scope := { sprite := lookupC1 }

/-- A snapshot with all kind sections present and empty. -/
def inputC2 : Input := { Sprite := some [], Graphic := some [], Filter := some [] }

/-- A concrete injected factory. -/
def makeC2 : String → Config → Obj := fun _ _ => 99

/-- Claim C2 counterexample: the load step fails and the failure reaches
the caller, yet the sprite registry has already been mutated — the stale
identifier b is gone from byIdentifier and its object 7 has been destroyed
— so the registry views and the set of live objects are not as they were
before the prepare call, contradicting the claim. -/
theorem C2_counterexample :
    (prepare makeC2 makeC2 scopeC2 inputC2 false).2.2 = Except.error PrepErr.loadFailed
    ∧ mget scopeC2.sprite.byIdentifier "b" = some 7
    ∧ (prepare makeC2 makeC2 scopeC2 inputC2 false).1.sprite.byIdentifier = []
    ∧ (prepare makeC2 makeC2 scopeC2 inputC2 false).2.1 = [7]
    ∧ ¬ ((prepare makeC2 makeC2 scopeC2 inputC2 false).1 = scopeC2) := by
  refine ⟨rfl, rfl, rfl, rfl, ?_⟩
  decide

/-- Claim C2 (amended): a load failure is propagated to the caller before
any creation-phase mutation — no factory call, no new registration — and
the scope the caller observes is exactly the clean-phase state; but the
cleanup mutations (stale-object disposal, byTag, Transition and
relationship clearing) have already occurred by then.  In particular no
identifier is registered after the failed call that was not registered
before it. -/
theorem C2_theorem (mS mG : String → Config → Obj) (s : Scope) (input : Input) :
    (prepare mS mG s input false).2.2 = Except.error PrepErr.loadFailed
    ∧ (prepare mS mG s input false).1 = (cleanPhase s input).1
    ∧ (prepare mS mG s input false).2.1
        = (cleanPhase s input).2.1 ++ (cleanPhase s input).2.2.1
            ++ (cleanPhase s input).2.2.2
    ∧ (∀ id, mget (prepare mS mG s input false).1.sprite.byIdentifier id ≠ none →
        mget s.sprite.byIdentifier id ≠ none)
    ∧ (∀ id, mget (prepare mS mG s input false).1.graphic.byIdentifier id ≠ none →
        mget s.graphic.byIdentifier id ≠ none) := by
  refine ⟨rfl, rfl, rfl, fun id h => ?_, fun id h => ?_⟩
  · exact clean_byIdentifier_ne_none input.Sprite s.sprite id h
  · exact clean_byIdentifier_ne_none input.Graphic s.graphic id h

/-- A snapshot whose Sprite section keeps identifier b, for the C2
witness. -/
def inputC2w : Input :=
  { Sprite := some [("b", { tag := some "t" })], Graphic := some [], Filter := some [] }

/-- Witness for the amended C2: the surviving identifier b discharges the
no-new-registration implication at a concrete input. -/
theorem C2_witness :
    mget (prepare makeC2 makeC2 scopeC2 inputC2w false).1.sprite.byIdentifier "b" ≠ none
    ∧ ((prepare makeC2 makeC2 scopeC2 inputC2w false).2.2
        = Except.error PrepErr.loadFailed)
    ∧ mget scopeC2.sprite.byIdentifier "b" ≠ none :=
  ⟨by decide, (C2_theorem makeC2 makeC2 scopeC2 inputC2w).1,
    (C2_theorem makeC2 makeC2 scopeC2 inputC2w).2.2.2.1 "b" (by decide)⟩

theorem formRelationships_error (sprites : List (String × Obj))
    (aliasTable : List (String × String)) :
    ∀ (staged : List (String × List Obj)) (cbp : List (Option Obj × List Obj))
      (pbc : List (Obj × Option Obj)),
      (∃ p, p ∈ keys staged ∧ mget sprites p = none ∧ mget aliasTable p = none) →
      formRelationships sprites aliasTable staged cbp pbc
        = Except.error RelErr.typeError := by
  intro staged
  induction staged with
  | nil =>
    intro cbp pbc h
    obtain ⟨p, hp, _, _⟩ := h
    simp [keys] at hp
  | cons e rest ih =>
    intro cbp pbc h
    obtain ⟨p, hp, hs, ha⟩ := h
    obtain ⟨identifier, children⟩ := e
    by_cases hid : identifier = p
    · subst hid
      simp [formRelationships, resolveParent, hs, ha]
    · have hp' : p ∈ keys rest := by
        simp only [keys, List.map_cons, List.mem_cons] at hp
        rcases hp with h | h
        · exact absurd h.symm hid
        · exact h
      cases hr : resolveParent sprites aliasTable identifier with
      | error er =>
        cases er
        simp [formRelationships, hr]
      | ok parent =>
        simp only [formRelationships, hr]
        exact ih _ _ ⟨p, hp', hs, ha⟩

theorem mget_create_byIdentifier_not_mem (make : String → Config → Obj)
    (configs : List (String × Config)) :
    ∀ (lk : Lookup) (staged : List (String × List Obj)) (p : String),
      p ∉ configs.map Prod.fst →
      mget (create make configs lk staged).1.byIdentifier p
        = mget lk.byIdentifier p := by
  induction configs with
  | nil => intro lk staged p _; rfl
  | cons e rest ih =>
    intro lk staged p hp
    obtain ⟨identifier, config⟩ := e
    simp only [List.map_cons, List.mem_cons] at hp
    push_neg at hp
    simp only [create]
    rw [ih _ _ _ hp.2, mget_mset_ne _ _ _ _ (fun hh => hp.1 hh.symm)]

theorem mget_create_staged_ne_none (make : String → Config → Obj)
    (configs : List (String × Config)) :
    ∀ (lk : Lookup) (staged : List (String × List Obj)) (p : String),
      (mget staged p ≠ none ∨ ∃ e ∈ configs, e.2.parent = some p) →
      mget (create make configs lk staged).2.1 p ≠ none := by
  induction configs with
  | nil =>
    intro lk staged p h
    rcases h with h | h
    · exact h
    · obtain ⟨e, he, _⟩ := h
      simp at he
  | cons e rest ih =>
    intro lk staged p h
    obtain ⟨identifier, config⟩ := e
    simp only [create]
    apply ih
    rcases h with h | h
    · left
      cases hpar : config.parent with
      | none => simpa [hpar] using h
      | some q =>
        simp only [hpar]
        exact mget_setOrAppend_ne_none _ _ _ _ (Or.inl h)
    · obtain ⟨e', he', hpe'⟩ := h
      rcases List.mem_cons.mp he' with he0 | he0
      · left
        have hpar : config.parent = some p := by
          rw [he0] at hpe'
          exact hpe'
        simp only [hpar]
        exact mget_setOrAppend_ne_none _ _ _ _ (Or.inr rfl)
      · right
        exact ⟨e', he0, hpe'⟩

theorem clean_byIdentifier_none (cur : List (String × Config)) (lk : Lookup) (p : String)
    (hnd : (keys lk.byIdentifier).Nodup) (hp : p ∉ cur.map Prod.fst) :
    mget (clean (some cur) lk).1.byIdentifier p = none := by
  rw [(clean_some_spec cur lk).1]
  by_cases hmem : p ∈ keys lk.byIdentifier
  · obtain ⟨e, he, hpe⟩ := List.mem_map.mp hmem
    have hstale : e ∈ staleOf (cur.map Prod.fst) lk.byIdentifier := by
      rw [staleOf, List.mem_filter]
      refine ⟨he, ?_⟩
      rw [hpe]
      simpa using hp
    have : p ∈ keys (staleOf (cur.map Prod.fst) lk.byIdentifier) := by
      rw [← hpe]
      exact List.mem_map_of_mem Prod.fst hstale
    exact mget_foldl_mdel_of_mem _ _ _ hnd this
  · cases hr : mget (List.foldl mdel lk.byIdentifier
        (keys (staleOf (cur.map Prod.fst) lk.byIdentifier))) p with
    | none => rfl
    | some v =>
      have h1 : mget lk.byIdentifier p ≠ none :=
        mget_foldl_mdel_ne_none (keys (staleOf (cur.map Prod.fst) lk.byIdentifier))
          lk.byIdentifier p (by simp [hr])
      rw [Ne, mget_eq_none_iff] at h1
      exact absurd (not_not.mp h1) hmem

/-- An empty scope for the C3 counterexample. -/
def scopeC3 : Scope := {}

/-- A snapshot declaring graphic c with parent p, where p is not a sprite
identifier but has an alias entry whose assetPath q is not registered
either. -/
def inputC3 : Input :=
  { Sprite := some [], Graphic := some [("c", { parent := some "p" })],
    Filter := some [], Alias := [("p", "q")] }

/-- A concrete injected factory for the C3 runs. -/
def makeC3 : String → Config → Obj := fun _ _ => 42

/-- Claim C3 counterexample: the declared parent p resolves to a registered
sprite neither directly nor through the alias table (its assetPath q is
unregistered), yet the reconciliation completes without any error and
leaves the child linked to an undefined parent, contradicting the claimed
fatal failure. -/
theorem C3_counterexample :
    mget (prepare makeC3 makeC3 scopeC3 inputC3 true).1.sprite.byIdentifier "p" = none
    ∧ mget (prepare makeC3 makeC3 scopeC3 inputC3 true).1.sprite.byIdentifier "q" = none
    ∧ mget inputC3.Alias "p" = some "q"
    ∧ (prepare makeC3 makeC3 scopeC3 inputC3 true).2.2 = Except.ok ["c"]
    ∧ (prepare makeC3 makeC3 scopeC3 inputC3 true).1.parentByChild = [(42, none)] := by
  exact ⟨by decide, by decide, by decide, rfl, by decide⟩

/-- Claim C3 (amended): the reconciliation fails fatally — the error
reaches the caller of prepare — exactly when some config declares a parent
identifier that is absent both from the snapshot's Sprite section (hence,
after cleaning against a present section, from the sprite registry) and
from the alias table.  When the alias table does have the entry but its
assetPath is unregistered, no error is raised (see the counterexample). -/
theorem C3_theorem (mS mG : String → Config → Obj) (s : Scope) (input : Input)
    (spriteCfgs : List (String × Config)) (id₀ : String) (cfg₀ : Config) (p : String)
    (hS : input.Sprite = some spriteCfgs)
    (hndk : (keys s.sprite.byIdentifier).Nodup)
    (hmem : (id₀, cfg₀) ∈ input.Graphic.getD [] ∨ (id₀, cfg₀) ∈ spriteCfgs)
    (hpar : cfg₀.parent = some p)
    (hnotSprite : p ∉ spriteCfgs.map Prod.fst)
    (hnotAlias : mget input.Alias p = none) :
    (prepare mS mG s input true).2.2 = Except.error PrepErr.relationship := by
  have hgd : input.Sprite.getD [] = spriteCfgs := by rw [hS]; rfl
  have hnotSprite' : p ∉ (input.Sprite.getD []).map Prod.fst := by
    rw [hgd]; exact hnotSprite
  have hsprNone : mget (cleanPhase s input).1.sprite.byIdentifier p = none := by
    have hcs : (cleanPhase s input).1.sprite = (clean input.Sprite s.sprite).1 := rfl
    rw [hcs, hS]
    exact clean_byIdentifier_none spriteCfgs s.sprite p hndk hnotSprite
  have hfinalNone : mget (create mS (input.Sprite.getD []) (cleanPhase s input).1.sprite
      (create mG (input.Graphic.getD []) (cleanPhase s input).1.graphic []).2.1).1.byIdentifier p
      = none := by
    rw [mget_create_byIdentifier_not_mem mS _ _ _ _ hnotSprite']
    exact hsprNone
  have hstaged : mget (create mS (input.Sprite.getD []) (cleanPhase s input).1.sprite
      (create mG (input.Graphic.getD []) (cleanPhase s input).1.graphic []).2.1).2.1 p
      ≠ none := by
    rcases hmem with hg | hsp
    · have h1 : mget (create mG (input.Graphic.getD [])
          (cleanPhase s input).1.graphic []).2.1 p ≠ none :=
        mget_create_staged_ne_none mG _ _ _ _ (Or.inr ⟨(id₀, cfg₀), hg, hpar⟩)
      exact mget_create_staged_ne_none mS _ _ _ _ (Or.inl h1)
    · have hsp' : (id₀, cfg₀) ∈ input.Sprite.getD [] := by rw [hgd]; exact hsp
      exact mget_create_staged_ne_none mS _ _ _ _ (Or.inr ⟨(id₀, cfg₀), hsp', hpar⟩)
  have hkeys : p ∈ keys (create mS (input.Sprite.getD []) (cleanPhase s input).1.sprite
      (create mG (input.Graphic.getD []) (cleanPhase s input).1.graphic []).2.1).2.1 := by
    rw [Ne, mget_eq_none_iff] at hstaged
    exact not_not.mp hstaged
  have halias : mget (cleanPhase s input).1.aliasTable p = none := hnotAlias
  have hform : formRelationships
      (create mS (input.Sprite.getD []) (cleanPhase s input).1.sprite
        (create mG (input.Graphic.getD []) (cleanPhase s input).1.graphic []).2.1).1.byIdentifier
      (cleanPhase s input).1.aliasTable
      (create mS (input.Sprite.getD []) (cleanPhase s input).1.sprite
        (create mG (input.Graphic.getD []) (cleanPhase s input).1.graphic []).2.1).2.1
      (cleanPhase s input).1.childrenByParent (cleanPhase s input).1.parentByChild
      = Except.error RelErr.typeError :=
    formRelationships_error _ _ _ _ _ ⟨p, hkeys, hfinalNone, halias⟩
  have hv : (configureVisuals mS mG input (cleanPhase s input).1).2.2
      = some RelErr.typeError := by
    simp only [configureVisuals, hform]
  simp [prepare, hv]

/-- A snapshot whose graphic declares parent p with no sprite and no alias
entry under p at all, for the C3 witness. -/
def inputC3w : Input :=
  { Sprite := some [], Graphic := some [("c", { parent := some "p" })],
    Filter := some [], Alias := [] }

/-- Witness for the amended C3 at a concrete snapshot. -/
theorem C3_witness :
    inputC3w.Sprite = some []
    ∧ (keys scopeC3.sprite.byIdentifier).Nodup
    ∧ ("c", ({ parent := some "p" } : Config)) ∈ inputC3w.Graphic.getD []
    ∧ mget inputC3w.Alias "p" = none
    ∧ (prepare makeC3 makeC3 scopeC3 inputC3w true).2.2
        = Except.error PrepErr.relationship :=
  ⟨rfl, by decide, by decide, rfl,
    C3_theorem makeC3 makeC3 scopeC3 inputC3w [] "c" { parent := some "p" } "p"
      rfl (by decide) (Or.inl (by decide)) rfl (by decide) rfl⟩

/-- Claim C4: resolvePosition computes exactly the spec's formula — parent
coordinate minus half the unit (width on x, height on y), plus the parent
anchor times the unit, plus half-minus-self-anchor times the self extent,
plus unit times the value; value 0 with both anchors one half resolves to
the parent's center for every self size; and the worked example with
parent frame x 100, width 200, value one quarter, anchors one half and
self width 0 resolves to 150. -/
theorem C4_theorem :
    (∀ (p : Position) (d : Dim) (self : Size) (parent : Parent),
      resolvePosition p d self parent = resolvePositionSpec p d self parent)
    ∧ (∀ (d : Dim) (self : Size) (parent : Parent),
      resolvePosition { value := 0, anchors := { self := 1/2, parent := 1/2 } }
          d self parent
        = (match d with | Dim.x => parent.x | Dim.y => parent.y))
    ∧ resolvePosition { value := 1/4, anchors := { self := 1/2, parent := 1/2 } }
        Dim.x { width := 0, height := 0 }
        { x := 100, y := 0, width := 200, height := 0 } = 150 := by
  refine ⟨fun p d self parent => ?_, fun d self parent => ?_, ?_⟩
  · cases d <;> simp [resolvePosition, resolvePositionSpec]
  · cases d <;> (simp only [resolvePosition]; ring)
  · norm_num [resolvePosition]

/-- The object one create step uses for an identifier: the registered one,
or a fresh factory product. -/
def pixiOf (make : String → Config → Obj) (lk : Lookup) (identifier : String)
    (config : Config) : Obj :=
  match mget lk.byIdentifier identifier with
  | some p => p
  | none => make identifier config

/-- The factory-call log entry of one create step. -/
def callsOf (lk : Lookup) (identifier : String) : List String :=
  match mget lk.byIdentifier identifier with
  | some _ => []
  | none => [identifier]

/-- The lookup after one create step. -/
def stepLookup (make : String → Config → Obj) (lk : Lookup) (identifier : String)
    (config : Config) : Lookup :=
  { byIdentifier := mset lk.byIdentifier identifier (pixiOf make lk identifier config)
    byTag := match config.tag with
             | some t => setOrAppend lk.byTag t (pixiOf make lk identifier config)
             | none => lk.byTag
    configBy := mset lk.configBy (pixiOf make lk identifier config) config
    identifierBy := mset lk.identifierBy (pixiOf make lk identifier config) identifier }

/-- The parent staging map after one create step. -/
def stepStaged (make : String → Config → Obj) (lk : Lookup)
    (staged : List (String × List Obj)) (identifier : String) (config : Config) :
    List (String × List Obj) :=
  match config.parent with
  | some p => setOrAppend staged p (pixiOf make lk identifier config)
  | none => staged

theorem create_cons (make : String → Config → Obj) (identifier : String) (config : Config)
    (rest : List (String × Config)) (lk : Lookup) (staged : List (String × List Obj)) :
    create make ((identifier, config) :: rest) lk staged
      = ((create make rest (stepLookup make lk identifier config)
            (stepStaged make lk staged identifier config)).1,
         (create make rest (stepLookup make lk identifier config)
            (stepStaged make lk staged identifier config)).2.1,
         callsOf lk identifier
           ++ (create make rest (stepLookup make lk identifier config)
                 (stepStaged make lk staged identifier config)).2.2) := by
  cases h : mget lk.byIdentifier identifier <;>
    simp [create, pixiOf, callsOf, stepLookup, stepStaged, h]

theorem create_calls_subset (make : String → Config → Obj) :
    ∀ (configs : List (String × Config)) (lk : Lookup) (staged : List (String × List Obj))
      (id : String), id ∈ (create make configs lk staged).2.2 → id ∈ configs.map Prod.fst := by
  intro configs
  induction configs with
  | nil => intro lk staged id h; simp [create] at h
  | cons e rest ih =>
    intro lk staged id h
    obtain ⟨identifier, config⟩ := e
    rw [create_cons] at h
    simp only [List.mem_append] at h
    rcases h with h | h
    · have hid : id = identifier := by
        unfold callsOf at h
        cases hm : mget lk.byIdentifier identifier <;> rw [hm] at h <;> simp at h
        exact h
      simp [hid]
    · simp [ih _ _ _ h]

theorem create_preserves_ne_none (make : String → Config → Obj) :
    ∀ (configs : List (String × Config)) (lk : Lookup) (staged : List (String × List Obj))
      (id : String), mget lk.byIdentifier id ≠ none →
      mget (create make configs lk staged).1.byIdentifier id ≠ none := by
  intro configs
  induction configs with
  | nil => intro lk staged id h; exact h
  | cons e rest ih =>
    intro lk staged id h
    obtain ⟨identifier, config⟩ := e
    rw [create_cons]
    apply ih
    simp only [stepLookup]
    by_cases hid : identifier = id
    · subst hid
      rw [mget_mset_self]
      simp
    · rw [mget_mset_ne _ _ _ _ hid]
      exact h

theorem create_registers (make : String → Config → Obj) :
    ∀ (configs : List (String × Config)) (lk : Lookup) (staged : List (String × List Obj)),
      ∀ e ∈ configs, mget (create make configs lk staged).1.byIdentifier e.1 ≠ none := by
  intro configs
  induction configs with
  | nil => intro lk staged e he; simp at he
  | cons e0 rest ih =>
    intro lk staged e he
    obtain ⟨identifier, config⟩ := e0
    rw [create_cons]
    rcases List.mem_cons.mp he with he0 | he0
    · subst he0
      apply create_preserves_ne_none
      simp only [stepLookup]
      rw [mget_mset_self]
      simp
    · exact ih _ _ e he0

theorem create_recycles (make : String → Config → Obj) :
    ∀ (configs : List (String × Config)), (configs.map Prod.fst).Nodup →
      ∀ (lk : Lookup) (staged : List (String × List Obj)) (id : String) (o : Obj),
        mget lk.byIdentifier id = some o → id ∈ configs.map Prod.fst →
        mget (create make configs lk staged).1.byIdentifier id = some o
        ∧ id ∉ (create make configs lk staged).2.2 := by
  intro configs
  induction configs with
  | nil => intro _ lk staged id o hm hmem; simp at hmem
  | cons e rest ih =>
    obtain ⟨identifier, config⟩ := e
    intro hnd lk staged id o hm hmem
    simp only [List.map_cons, List.nodup_cons] at hnd
    rw [create_cons]
    by_cases hid : id = identifier
    · subst hid
      have hpx : pixiOf make lk id config = o := by simp [pixiOf, hm]
      constructor
      · rw [mget_create_byIdentifier_not_mem make rest _ _ _ hnd.1]
        simp [stepLookup, mget_mset_self, hpx]
      · intro hcall
        simp only [List.mem_append] at hcall
        rcases hcall with hcall | hcall
        · simp [callsOf, hm] at hcall
        · exact hnd.1 (create_calls_subset make rest _ _ _ hcall)
    · have hmem' : id ∈ rest.map Prod.fst := by
        simp only [List.map_cons, List.mem_cons] at hmem
        rcases hmem with h | h
        · exact absurd h hid
        · exact h
      have hm' : mget (stepLookup make lk identifier config).byIdentifier id = some o := by
        simp only [stepLookup]
        rw [mget_mset_ne _ _ _ _ (fun hh => hid hh.symm)]
        exact hm
      have hrec := ih hnd.2 (stepLookup make lk identifier config)
        (stepStaged make lk staged identifier config) id o hm' hmem'
      refine ⟨hrec.1, ?_⟩
      intro hcall
      simp only [List.mem_append] at hcall
      rcases hcall with hcall | hcall
      · unfold callsOf at hcall
        cases hmm : mget lk.byIdentifier identifier <;> rw [hmm] at hcall <;>
          simp at hcall
        exact hid hcall
      · exact hrec.2 hcall

theorem create_noop (make : String → Config → Obj) :
    ∀ (configs : List (String × Config)) (lk : Lookup) (staged : List (String × List Obj)),
      (∀ e ∈ configs, mget lk.byIdentifier e.1 ≠ none) →
      (create make configs lk staged).1.byIdentifier = lk.byIdentifier
      ∧ (create make configs lk staged).2.2 = [] := by
  intro configs
  induction configs with
  | nil => intro lk staged _; exact ⟨rfl, rfl⟩
  | cons e rest ih =>
    intro lk staged h
    obtain ⟨identifier, config⟩ := e
    have h0 : mget lk.byIdentifier identifier ≠ none :=
      h (identifier, config) (List.mem_cons_self _ _)
    cases hm : mget lk.byIdentifier identifier with
    | none => exact absurd hm h0
    | some p =>
      have hset : (stepLookup make lk identifier config).byIdentifier = lk.byIdentifier := by
        have hpx : pixiOf make lk identifier config = p := by simp [pixiOf, hm]
        simp only [stepLookup, hpx]
        exact mset_eq_self_of_mget _ _ _ hm
      rw [create_cons]
      have hrest : ∀ e ∈ rest,
          mget (stepLookup make lk identifier config).byIdentifier e.1 ≠ none := by
        intro e he
        rw [hset]
        exact h e (List.mem_cons_of_mem _ he)
      have hrec := ih (stepLookup make lk identifier config)
        (stepStaged make lk staged identifier config) hrest
      refine ⟨by rw [hrec.1, hset], ?_⟩
      simp [callsOf, hm, hrec.2]

theorem clean_byIdentifier_mem (cur : List (String × Config)) (lk : Lookup) (id : String)
    (h : id ∈ cur.map Prod.fst) :
    mget (clean (some cur) lk).1.byIdentifier id = mget lk.byIdentifier id := by
  rw [(clean_some_spec cur lk).1]
  apply mget_foldl_mdel_of_not_mem
  intro hmem
  obtain ⟨e, he, hpe⟩ := List.mem_map.mp hmem
  rw [staleOf, List.mem_filter] at he
  have h2 : e.1 ∉ cur.map Prod.fst := by simpa using he.2
  rw [hpe] at h2
  exact h2 h

theorem clean_noop (cur : List (String × Config)) (lk : Lookup)
    (h : ∀ e ∈ lk.byIdentifier, e.1 ∈ cur.map Prod.fst) :
    (clean (some cur) lk).1.byIdentifier = lk.byIdentifier
    ∧ (clean (some cur) lk).1.configBy = lk.configBy
    ∧ (clean (some cur) lk).1.byTag = []
    ∧ (clean (some cur) lk).1.identifierBy = lk.identifierBy
    ∧ (clean (some cur) lk).2 = [] := by
  have hstale : staleOf (cur.map Prod.fst) lk.byIdentifier = [] := by
    rw [staleOf, List.filter_eq_nil_iff]
    intro e he
    simpa using h e he
  have hs := clean_some_spec cur lk
  exact ⟨by rw [hs.1, hstale]; rfl, by rw [hs.2.1, hstale]; rfl, hs.2.2.1,
    hs.2.2.2.1, by rw [hs.2.2.2.2, hstale]; rfl⟩

theorem reconcile_keys (make : String → Config → Obj) (configs : List (String × Config))
    (lk : Lookup) (hndk : (keys lk.byIdentifier).Nodup) :
    ∀ id, mget (reconcileKind make configs lk).1.byIdentifier id ≠ none →
      id ∈ configs.map Prod.fst := by
  intro id h
  by_cases hid : id ∈ configs.map Prod.fst
  · exact hid
  · exfalso
    apply h
    show mget (create make configs (clean (some configs) lk).1 []).1.byIdentifier id = none
    rw [mget_create_byIdentifier_not_mem make configs _ _ _ hid]
    exact clean_byIdentifier_none configs lk id hndk hid

/-- Claim C7: an identifier present in two consecutively reconciled
snapshots keeps the same object identity across both passes and the
factory is not invoked for it on the second pass; in particular,
reconciling a second time with the identical snapshot leaves the
identifier→object view unchanged, destroys nothing and makes no factory
call at all. -/
theorem C7_theorem (make make₂ : String → Config → Obj) (configs : List (String × Config))
    (lk : Lookup)
    (hndc : (configs.map Prod.fst).Nodup)
    (hndk : (keys lk.byIdentifier).Nodup) :
    (∀ id o, mget lk.byIdentifier id = some o → id ∈ configs.map Prod.fst →
      mget (reconcileKind make configs lk).1.byIdentifier id = some o
      ∧ id ∉ (reconcileKind make configs lk).2.2)
    ∧ (reconcileKind make₂ configs (reconcileKind make configs lk).1).1.byIdentifier
        = (reconcileKind make configs lk).1.byIdentifier
    ∧ (reconcileKind make₂ configs (reconcileKind make configs lk).1).2.1 = []
    ∧ (reconcileKind make₂ configs (reconcileKind make configs lk).1).2.2 = [] := by
  constructor
  · intro id o hm hmem
    have hc : mget (clean (some configs) lk).1.byIdentifier id = some o := by
      rw [clean_byIdentifier_mem configs lk id hmem]
      exact hm
    exact create_recycles make configs hndc (clean (some configs) lk).1 [] id o hc hmem
  · have hkeys1 : ∀ e ∈ (reconcileKind make configs lk).1.byIdentifier,
        e.1 ∈ configs.map Prod.fst := by
      intro e he
      apply reconcile_keys make configs lk hndk
      exact mget_ne_none_of_mem _ e.1 e.2 (by simpa using he)
    have hcl := clean_noop configs (reconcileKind make configs lk).1 hkeys1
    have hreg : ∀ e ∈ configs,
        mget (clean (some configs) (reconcileKind make configs lk).1).1.byIdentifier e.1
          ≠ none := by
      intro e he
      rw [hcl.1]
      exact create_registers make configs (clean (some configs) lk).1 [] e he
    have hcr := create_noop make₂ configs
      (clean (some configs) (reconcileKind make configs lk).1).1 [] hreg
    refine ⟨?_, hcl.2.2.2.2, hcr.2⟩
    show (create make₂ configs
        (clean (some configs) (reconcileKind make configs lk).1).1 []).1.byIdentifier = _
    rw [hcr.1, hcl.1]

/-- A registry already holding identifier a, for the C7 witness. -/
def lookupC7 : Lookup :=
  { byIdentifier := [("a", 5)], byTag := [], configBy := [(5, {})],
    identifierBy := [(5, "a")] }

/-- A one-identifier snapshot section for the C7 witness. -/
def configsC7 : List (String × Config) := [("a", { tag := some "t" })]

/-- A concrete injected factory for the C7 witness. -/
def makeC7 : String → Config → Obj := fun _ _ => 6

/-- Witness for C7 at a concrete registry and snapshot. -/
theorem C7_witness :
    (configsC7.map Prod.fst).Nodup
    ∧ (keys lookupC7.byIdentifier).Nodup
    ∧ mget lookupC7.byIdentifier "a" = some 5
    ∧ (mget (reconcileKind makeC7 configsC7 lookupC7).1.byIdentifier "a" = some 5
      ∧ "a" ∉ (reconcileKind makeC7 configsC7 lookupC7).2.2)
    ∧ (reconcileKind makeC7 configsC7 (reconcileKind makeC7 configsC7 lookupC7).1).2.2
        = [] :=
  ⟨by decide, by decide, rfl,
    (C7_theorem makeC7 makeC7 configsC7 lookupC7 (by decide) (by decide)).1 "a" 5 rfl
      (by decide),
    (C7_theorem makeC7 makeC7 configsC7 lookupC7 (by decide) (by decide)).2.2.2⟩

theorem create_byTag_spec (make : String → Config → Obj) :
    ∀ (configs : List (String × Config)), (configs.map Prod.fst).Nodup →
      ∀ (lk : Lookup) (staged : List (String × List Obj)) (t : String) (o : Obj),
        (o ∈ bucket (create make configs lk staged).1.byTag t
          ↔ o ∈ bucket lk.byTag t
            ∨ ∃ e ∈ configs, e.2.tag = some t
                ∧ mget (create make configs lk staged).1.byIdentifier e.1 = some o) := by
  intro configs
  induction configs with
  | nil =>
    intro _ lk staged t o
    simp [create]
  | cons e0 rest ih =>
    obtain ⟨identifier, config⟩ := e0
    intro hnd lk staged t o
    simp only [List.map_cons, List.nodup_cons] at hnd
    rw [create_cons]
    have hfin : mget (create make rest (stepLookup make lk identifier config)
        (stepStaged make lk staged identifier config)).1.byIdentifier identifier
        = some (pixiOf make lk identifier config) := by
      rw [mget_create_byIdentifier_not_mem make rest _ _ _ hnd.1]
      simp [stepLookup, mget_mset_self]
    have hBucket : o ∈ bucket (stepLookup make lk identifier config).byTag t
        ↔ o ∈ bucket lk.byTag t
          ∨ (config.tag = some t ∧ pixiOf make lk identifier config = o) := by
      cases htag : config.tag with
      | none => simp [stepLookup, htag]
      | some t' =>
        by_cases ht : t' = t
        · subst ht
          simp [stepLookup, htag, bucket_setOrAppend_self, eq_comm]
        · simp [stepLookup, htag, bucket_setOrAppend_ne lk.byTag t' t _ ht, ht]
    rw [ih hnd.2 (stepLookup make lk identifier config)
        (stepStaged make lk staged identifier config) t o, hBucket,
      List.exists_mem_cons_iff]
    simp only [hfin, Option.some.injEq]
    tauto

/-- Claim C8: after a reconciliation whose kind section is present, the tag
view holds under each tag exactly the objects whose config in that
snapshot declares the tag: membership in a tag's bucket is equivalent to
the existence of a snapshot entry carrying the tag whose identifier maps
to the object.  Nothing survives from an earlier snapshot that dropped or
changed a tag, because the view is rebuilt from scratch. -/
theorem C8_theorem (make : String → Config → Obj) (configs : List (String × Config))
    (lk : Lookup) (hndc : (configs.map Prod.fst).Nodup) (t : String) (o : Obj) :
    o ∈ bucket (reconcileKind make configs lk).1.byTag t
      ↔ ∃ e ∈ configs, e.2.tag = some t
          ∧ mget (reconcileKind make configs lk).1.byIdentifier e.1 = some o := by
  have h := create_byTag_spec make configs hndc (clean (some configs) lk).1 [] t o
  have hempty : bucket (clean (some configs) lk).1.byTag t = [] := by
    rw [bucket, (clean_some_spec configs lk).2.2.1]
    rfl
  show o ∈ bucket (create make configs (clean (some configs) lk).1 []).1.byTag t
    ↔ ∃ e ∈ configs, e.2.tag = some t
        ∧ mget (create make configs (clean (some configs) lk).1 []).1.byIdentifier e.1
            = some o
  rw [h, hempty]
  simp

/-- A registry whose tag view carries a stale tag from the previous
snapshot, for the C8 witness. -/
def lookupC8 : Lookup :=
  { byIdentifier := [("a", 3)], byTag := [("old", [3])],
    configBy := [(3, { tag := some "old" })], identifierBy := [(3, "a")] }

/-- A snapshot section that retags identifier a, for the C8 witness. -/
def configsC8 : List (String × Config) := [("a", { tag := some "t" })]

/-- A concrete injected factory for the C8 witness. -/
def makeC8 : String → Config → Obj := fun _ _ => 4

/-- Witness for C8 at a concrete registry with a dropped tag. -/
theorem C8_witness :
    (configsC8.map Prod.fst).Nodup
    ∧ (3 ∈ bucket (reconcileKind makeC8 configsC8 lookupC8).1.byTag "t"
        ↔ ∃ e ∈ configsC8, e.2.tag = some "t"
            ∧ mget (reconcileKind makeC8 configsC8 lookupC8).1.byIdentifier e.1
                = some 3) :=
  ⟨by decide, C8_theorem makeC8 configsC8 lookupC8 (by decide) "t" 3⟩

theorem sizeOf_node_pos (n : Node) : 1 ≤ sizeOf n := by
  cases n
  simp
  omega

theorem foldl_updateTopmost_some (l : List Node) :
    ∀ (t : Node), ∃ m, List.foldl updateTopmost (some t) l = some m
      ∧ (m = t ∨ m ∈ l) ∧ t.zIndex ≤ m.zIndex ∧ ∀ c ∈ l, c.zIndex ≤ m.zIndex := by
  induction l with
  | nil => intro t; exact ⟨t, rfl, Or.inl rfl, le_refl _, by simp⟩
  | cons c rest ih =>
    intro t
    rw [List.foldl_cons]
    by_cases h : t.zIndex < c.zIndex
    · have hu : updateTopmost (some t) c = some c := by simp [updateTopmost, h]
      rw [hu]
      obtain ⟨m, hm, hmem, hle, hall⟩ := ih c
      refine ⟨m, hm, ?_, le_of_lt (lt_of_lt_of_le h hle), ?_⟩
      · rcases hmem with h' | h'
        · exact Or.inr (h' ▸ List.mem_cons_self _ _)
        · exact Or.inr (List.mem_cons_of_mem _ h')
      · intro z hz
        rcases List.mem_cons.mp hz with hz | hz
        · subst hz; exact hle
        · exact hall z hz
    · have hu : updateTopmost (some t) c = some t := by simp [updateTopmost, h]
      rw [hu]
      obtain ⟨m, hm, hmem, hle, hall⟩ := ih t
      refine ⟨m, hm, ?_, hle, ?_⟩
      · rcases hmem with h' | h'
        · exact Or.inl h'
        · exact Or.inr (List.mem_cons_of_mem _ h')
      · intro z hz
        rcases List.mem_cons.mp hz with hz | hz
        · subst hz; exact le_trans (le_of_not_lt h) hle
        · exact hall z hz

theorem foldl_updateTopmost_none_none (l : List Node) :
    List.foldl updateTopmost none l = none ↔ l = [] := by
  cases l with
  | nil => simp
  | cons c rest =>
    rw [List.foldl_cons]
    have hu : updateTopmost none c = some c := rfl
    rw [hu]
    obtain ⟨m, hm, _, _, _⟩ := foldl_updateTopmost_some rest c
    rw [hm]
    simp

theorem foldl_updateTopmost_none_some (l : List Node) (m : Node)
    (h : List.foldl updateTopmost none l = some m) :
    m ∈ l ∧ ∀ c ∈ l, c.zIndex ≤ m.zIndex := by
  cases l with
  | nil => simp [List.foldl_nil] at h
  | cons c rest =>
    rw [List.foldl_cons] at h
    have hu : updateTopmost none c = some c := rfl
    rw [hu] at h
    obtain ⟨m', hm', hmem, hle, hall⟩ := foldl_updateTopmost_some rest c
    rw [hm'] at h
    injection h with h
    subst h
    constructor
    · rcases hmem with h' | h'
      · exact h' ▸ List.mem_cons_self _ _
      · exact List.mem_cons_of_mem _ h'
    · intro z hz
      rcases List.mem_cons.mp hz with hz | hz
      · subst hz; exact hle
      · exact hall z hz

theorem traverseChildren_eq_foldl (x y : ℚ) :
    ∀ (n : Nat) (l : List Node), sizeOf l ≤ n → ∀ (best : Option Node),
      traverseChildren x y l best
        = List.foldl updateTopmost best (hitChainList x y l) := by
  intro n
  induction n with
  | zero =>
    intro l hl best
    exfalso
    cases l with
    | nil => simp at hl
    | cons a r => simp at hl
  | succ n ih =>
    intro l hl best
    cases l with
    | nil => simp [traverseChildren, hitChainList]
    | cons child rest =>
      have hsize : sizeOf (child :: rest) = 1 + sizeOf child + sizeOf rest := by
        simp
      have hchild1 : 1 ≤ sizeOf child := sizeOf_node_pos child
      have hcc : sizeOf child.children < sizeOf child := sizeOf_node_children_lt child
      have hccr : sizeOf child.children.reverse = sizeOf child.children :=
        sizeOf_node_list_reverse _
      by_cases hhit : hitBounds child.bounds x y = true
      · by_cases hemp : child.children.isEmpty = true
        · simp [traverseChildren, hitChainList, hhit, hemp]
        · rw [show traverseChildren x y (child :: rest) best
              = updateTopmost (traverseChildren x y child.children.reverse best) child from by
            simp [traverseChildren, hhit, hemp]]
          rw [show hitChainList x y (child :: rest)
              = hitChainList x y child.children.reverse ++ [child] from by
            simp [hitChainList, hhit, hemp]]
          rw [List.foldl_append, List.foldl_cons, List.foldl_nil]
          rw [ih child.children.reverse (by omega) best]
      · simp only [traverseChildren, hitChainList, hhit, if_false]
        exact ih rest (by omega) best

/-- Claim C5: the hit-test traversal treats a point as hitting a child
exactly when it lies within the child's bounds inclusively on all four
edges; the traversal equals the chain semantics — at each level the
children are scanned in reverse insertion order, the scan stops at the
first bounds hit, recursing into that child first when it has descendants
— and the returned candidate, when one exists, lies on the visited chain
and carries the maximal zIndex among all levels visited; the result is
empty exactly when the chain is. -/
theorem C5_theorem (root : Node) (x y : ℚ) :
    (∀ (b : Bounds), hitBounds b x y = true
      ↔ b.x ≤ x ∧ x ≤ b.x + b.width ∧ b.y ≤ y ∧ y ≤ b.y + b.height)
    ∧ (findTopmostObjectAtPosition root x y = none ↔ hitChain root x y = [])
    ∧ (∀ m, findTopmostObjectAtPosition root x y = some m →
        m ∈ hitChain root x y ∧ ∀ c ∈ hitChain root x y, c.zIndex ≤ m.zIndex) := by
  have hbridge : findTopmostObjectAtPosition root x y
      = List.foldl updateTopmost none (hitChain root x y) := by
    rw [findTopmostObjectAtPosition, hitChain]
    exact traverseChildren_eq_foldl x y (sizeOf root.children.reverse) _ (le_refl _) none
  refine ⟨fun b => ?_, ?_, fun m hm => ?_⟩
  · simp [hitBounds, and_assoc]
  · rw [hbridge]
    exact foldl_updateTopmost_none_none _
  · rw [hbridge] at hm
    exact foldl_updateTopmost_none_some _ _ hm

/-- Deep node of the C5 witness tree: contains the query point, zIndex 9. -/
def nodeC5c : Node := Node.mk 3 Kind.sprite { x := 0, y := 0, width := 4, height := 4 } 9 []

/-- Middle node of the C5 witness tree: contains the point, zIndex 1, one
descendant. -/
def nodeC5b : Node :=
  Node.mk 2 Kind.sprite { x := 0, y := 0, width := 4, height := 4 } 1 [nodeC5c]

/-- Sibling of the C5 witness tree that misses the query point. -/
def nodeC5a : Node :=
  Node.mk 1 Kind.sprite { x := 10, y := 10, width := 1, height := 1 } 5 []

/-- Root container of the C5 witness tree. -/
def rootC5 : Node :=
  Node.mk 0 Kind.container { x := 0, y := 0, width := 100, height := 100 } 0
    [nodeC5a, nodeC5b]

/-- Witness for C5: on the concrete tree the traversal returns the deep
node, which lies on the visited chain and has its maximal zIndex. -/
theorem C5_witness :
    findTopmostObjectAtPosition rootC5 2 2 = some nodeC5c
    ∧ (nodeC5c ∈ hitChain rootC5 2 2
      ∧ ∀ c ∈ hitChain rootC5 2 2, c.zIndex ≤ nodeC5c.zIndex) := by
  have hb : hitBounds { x := 0, y := 0, width := 4, height := 4 } 2 2 = true := by
    norm_num [hitBounds]
  have hnb : hitBounds { x := 10, y := 10, width := 1, height := 1 } 2 2 = false := by
    norm_num [hitBounds]
  have h : findTopmostObjectAtPosition rootC5 2 2 = some nodeC5c := by
    simp [findTopmostObjectAtPosition, rootC5, nodeC5a, nodeC5b, nodeC5c,
      traverseChildren, updateTopmost, hb, hnb, Node.bounds, Node.children,
      Node.zIndex]
  exact ⟨h, (C5_theorem rootC5 2 2).2.2 nodeC5c h⟩

theorem sortChildrenByZ_two (lo hi : Node) (h : lo.zIndex < hi.zIndex) (l : List Node)
    (hl : l = [lo, hi] ∨ l = [hi, lo]) : sortChildrenByZ l = [lo, hi] := by
  rcases hl with hl | hl <;> subst hl
  · simp [sortChildrenByZ, insertByZ, h]
  · simp [sortChildrenByZ, insertByZ, h.asymm]

theorem traverseChildren_two (x y : ℚ) (lo hi : Node) (hhiC : hi.children = [])
    (hbhi : hitBounds hi.bounds x y = true) :
    traverseChildren x y [hi, lo] none = some hi := by
  have hemp : hi.children.isEmpty = true := by rw [hhiC]; rfl
  simp [traverseChildren, hbhi, hemp, updateTopmost]

/-- Claim C6: two sibling leaves with overlapping bounds and distinct
zIndex values, reconciled into a container whose children the zIndex sort
has ordered, are hit-tested so that a query point inside both bounds
returns the config and the identifier of the higher-zIndex sibling. -/
theorem C6_theorem (sprite graphic : Lookup) (cid : Obj) (cb : Bounds) (cz : Int)
    (lo hi : Node) (l : List Node) (x y : ℚ) (cfg : Config) (hid : String)
    (hhiC : hi.children = [])
    (hz : lo.zIndex < hi.zIndex)
    (_hblo : hitBounds lo.bounds x y = true)
    (hbhi : hitBounds hi.bounds x y = true)
    (hl : l = [lo, hi] ∨ l = [hi, lo])
    (hk : (hi.kind = Kind.sprite ∧ mget sprite.configBy hi.id = some cfg
            ∧ mget sprite.identifierBy hi.id = some hid)
        ∨ (hi.kind = Kind.graphic ∧ mget graphic.configBy hi.id = some cfg
            ∧ mget graphic.identifierBy hi.id = some hid)) :
    ∃ sprite' graphic',
      getHit sprite graphic (Node.mk cid Kind.container cb cz (sortChildrenByZ l)) x y
        = Except.ok (some (some (withIdentifier cfg (some hid))), sprite', graphic') := by
  have hsort := sortChildrenByZ_two lo hi hz l hl
  have hfind : findTopmostObjectAtPosition
      (Node.mk cid Kind.container cb cz (sortChildrenByZ l)) x y = some hi := by
    rw [findTopmostObjectAtPosition]
    rw [show (Node.mk cid Kind.container cb cz (sortChildrenByZ l)).children
        = sortChildrenByZ l from rfl, hsort]
    rw [show ([lo, hi] : List Node).reverse = [hi, lo] from rfl]
    exact traverseChildren_two x y lo hi hhiC hbhi
  rcases hk with ⟨hks, hcfg, hid'⟩ | ⟨hkg, hcfg, hid'⟩
  · exact ⟨{ sprite with configBy := mset sprite.configBy hi.id (withIdentifier cfg (some hid)) },
      graphic, by simp [getHit, withIdentifier, hfind, hks, hcfg, hid']⟩
  · exact ⟨sprite,
      { graphic with configBy := mset graphic.configBy hi.id (withIdentifier cfg (some hid)) },
      by simp [getHit, withIdentifier, hfind, hkg, hcfg, hid']⟩

/-- Lower sibling of the C6 witness scene. -/
def nodeC6lo : Node :=
  Node.mk 1 Kind.sprite { x := 0, y := 0, width := 4, height := 4 } 1 []

/-- Higher sibling of the C6 witness scene. -/
def nodeC6hi : Node :=
  Node.mk 2 Kind.sprite { x := 1, y := 1, width := 4, height := 4 } 5 []

/-- Sprite lookup of the C6 witness scene. -/
def spriteC6 : Lookup :=
  { byIdentifier := [("lo", 1), ("hi", 2)], byTag := [],
    configBy := [(1, { zIndex := some 1 }), (2, { zIndex := some 5 })],
    identifierBy := [(1, "lo"), (2, "hi")] }

/-- Witness for C6 at a concrete pair of overlapping siblings inserted in
either order. -/
theorem C6_witness :
    ∃ sprite' graphic',
      getHit spriteC6 {} (Node.mk 0 Kind.container
          { x := 0, y := 0, width := 9, height := 9 } 0
          (sortChildrenByZ [nodeC6hi, nodeC6lo])) 2 2
        = Except.ok (some (some (withIdentifier { zIndex := some 5 } (some "hi"))),
            sprite', graphic') := by
  have hblo : hitBounds nodeC6lo.bounds 2 2 = true := by
    norm_num [hitBounds, nodeC6lo, Node.bounds]
  have hbhi : hitBounds nodeC6hi.bounds 2 2 = true := by
    norm_num [hitBounds, nodeC6hi, Node.bounds]
  exact C6_theorem spriteC6 {} 0 { x := 0, y := 0, width := 9, height := 9 } 0
    nodeC6lo nodeC6hi [nodeC6hi, nodeC6lo] 2 2 { zIndex := some 5 } "hi"
    rfl (by decide) hblo hbhi (Or.inr rfl)
    (Or.inl ⟨rfl, rfl, rfl⟩)

/-- Claim C10: when getHit resolves a hit to a sprite or a graphic, it
writes the candidate's identifier into the very config stored in the
object→config view before posting it: the posted message and the stored
config afterwards are the same value, carrying the identifier field, so
hit-testing mutates the Registry. -/
theorem C10_theorem (sprite graphic : Lookup) (container : Node) (x y : ℚ) (n : Node)
    (cfg : Config) (hfind : findTopmostObjectAtPosition container x y = some n) :
    (n.kind = Kind.sprite → mget sprite.configBy n.id = some cfg →
      getHit sprite graphic container x y
        = Except.ok (some (some (withIdentifier cfg (mget sprite.identifierBy n.id))),
            { sprite with configBy := mset sprite.configBy n.id
                            (withIdentifier cfg (mget sprite.identifierBy n.id)) },
            graphic)
      ∧ mget (mset sprite.configBy n.id
            (withIdentifier cfg (mget sprite.identifierBy n.id))) n.id
          = some (withIdentifier cfg (mget sprite.identifierBy n.id)))
    ∧ (n.kind = Kind.graphic → mget graphic.configBy n.id = some cfg →
      getHit sprite graphic container x y
        = Except.ok (some (some (withIdentifier cfg (mget graphic.identifierBy n.id))),
            sprite,
            { graphic with configBy := mset graphic.configBy n.id
                             (withIdentifier cfg (mget graphic.identifierBy n.id)) })
      ∧ mget (mset graphic.configBy n.id
            (withIdentifier cfg (mget graphic.identifierBy n.id))) n.id
          = some (withIdentifier cfg (mget graphic.identifierBy n.id))) := by
  constructor
  · intro hk hcfg
    exact ⟨by simp [getHit, withIdentifier, hfind, hk, hcfg], mget_mset_self _ _ _⟩
  · intro hk hcfg
    exact ⟨by simp [getHit, withIdentifier, hfind, hk, hcfg], mget_mset_self _ _ _⟩

/-- The single sprite of the C10 witness scene. -/
def nodeC10 : Node :=
  Node.mk 8 Kind.sprite { x := 0, y := 0, width := 2, height := 2 } 0 []

/-- Root of the C10 witness scene. -/
def rootC10 : Node :=
  Node.mk 0 Kind.container { x := 0, y := 0, width := 9, height := 9 } 0 [nodeC10]

/-- Sprite lookup of the C10 witness scene; the stored config has no
identifier field yet. -/
def spriteC10 : Lookup :=
  { byIdentifier := [("spr", 8)], byTag := [], configBy := [(8, { zIndex := some 3 })],
    identifierBy := [(8, "spr")] }

/-- Witness for C10: after the query the stored config carries the
identifier, and the sprite lookup differs from the one before the call. -/
theorem C10_witness :
    findTopmostObjectAtPosition rootC10 1 1 = some nodeC10
    ∧ (getHit spriteC10 {} rootC10 1 1
        = Except.ok (some (some (withIdentifier { zIndex := some 3 } (some "spr"))),
            { spriteC10 with configBy := mset spriteC10.configBy 8
                               (withIdentifier { zIndex := some 3 } (some "spr")) },
            {})
      ∧ mget (mset spriteC10.configBy 8 (withIdentifier { zIndex := some 3 } (some "spr"))) 8
          = some (withIdentifier { zIndex := some 3 } (some "spr")))
    ∧ mset spriteC10.configBy 8 (withIdentifier { zIndex := some 3 } (some "spr"))
        ≠ spriteC10.configBy := by
  have hb : hitBounds { x := 0, y := 0, width := 2, height := 2 } 1 1 = true := by
    norm_num [hitBounds]
  have hfind : findTopmostObjectAtPosition rootC10 1 1 = some nodeC10 := by
    simp [findTopmostObjectAtPosition, rootC10, nodeC10, traverseChildren,
      updateTopmost, hb, Node.bounds, Node.children]
  refine ⟨hfind, ?_, by decide⟩
  have h := (C10_theorem spriteC10 {} rootC10 1 1 nodeC10 { zIndex := some 3 } hfind).1
    rfl rfl
  exact h

end SchemaPixi
